import Mathlib

set_option maxRecDepth 40000

/-!
Verification of the `landing.py` conversion pipeline: button records loaded
from CSV/JSON files are rendered to HTML button fragments, grouped into
lines, and substituted into two templates.  Python dictionaries holding the
recognized keys are modelled by `Record`; Python values appearing in records
by `Val` (string, integer or null); the CLI configuration namespace by
`Args`.  CSV/JSON text-level parsing and the Jinja2 template engine are
external libraries: files are modelled post-parse (`FileContent`) and the
template collaborator contract (escaping of string variables, marked-safe
markup inserted verbatim) is modelled by `TVal`/`renderVar`/`World`.
-/

/-- A Python value as it occurs in a button record: a string, an integer
(JSON number) or `None`/null. -/
inductive Val : Type
  | vstr (s : String)
  | vnum (n : Int)
  | vnull
deriving DecidableEq

/-- Python truthiness of a `Val`: empty string, 0 and None are falsy. -/
def Val.truthy : Val → Bool
  | .vstr s => !(s == "")
  | .vnum n => !(n == 0)
  | .vnull => false

/-- Python `str()` / f-string rendering of a `Val`. -/
def Val.fstr : Val → String
  | .vstr s => s
  | .vnum n => toString n
  | .vnull => "None"

/-- Truthiness of `dict.get(key)`: an absent key yields None (falsy). -/
def truthyO : Option Val → Bool
  | none => false
  | some v => v.truthy

/-- f-string rendering of a possibly absent value (absent renders "None"). -/
def fstrO : Option Val → String
  | none => "None"
  | some v => v.fstr

/-- A button record: a dict with the recognized keys of `landing.py`
("text", "fa icon", "url", "button width", "fontsize", "color",
"hovered color"); `none` means the key is absent. -/
structure Record where
  text : Option Val := none
  fa_icon : Option Val := none
  url : Option Val := none
  button_width : Option Val := none
  fontsize : Option Val := none
  color : Option Val := none
  hovered_color : Option Val := none
deriving DecidableEq

/-- Python truthiness of a record dict: true iff the dict is non-empty,
i.e. at least one key is present. -/
def Record.truthy (r : Record) : Bool :=
  r.text.isSome || r.fa_icon.isSome || r.url.isSome || r.button_width.isSome
    || r.fontsize.isSome || r.color.isSome || r.hovered_color.isSome

/-- The CLI configuration (`parse_cli`, lines 63-75), with its documented
defaults. -/
structure Args where
  button_width : Int := 220
  button_height : Int := 100
  button_color : String := "DarkOrange"
  hover_button_color : String := "Orange"
  max_button_per_line : Nat := 2
  fontsize : Int := 20
  outdir : String := "out/"
  template_dir : String := "templates/"
deriving DecidableEq

/-- Python `sep.join(xs)`. -/
def pyJoin (sep : String) : List String → String
  | [] => ""
  | [x] => x
  | x :: y :: xs => x ++ sep ++ pyJoin sep (y :: xs)

/-- Recursion core of `grouper`, structural on a fuel bounded below by the
length of the remaining list (the fuel-exhausted branch is unreachable
when the fuel is at least the length). -/
def grouperGo {α : Type} (fuel : Nat) (l : List α) (n : Nat) : List (List (Option α)) :=
  match fuel, l, n with
  | _, [], _ => []
  | _, _ :: _, 0 => []
  | 0, _ :: _, _ + 1 => []
  | fuel + 1, a :: t, m + 1 =>
    (((a :: t).take (m + 1)).map some ++ List.replicate ((m + 1) - (a :: t).length) none)
      :: grouperGo fuel ((a :: t).drop (m + 1)) (m + 1)

/-- `grouper` (lines 50-60): chunks of exactly `n` slots, the last chunk
padded with `none` (Python pads with the fillvalue None via zip_longest).
With `n = 0` Python's `zip_longest()` of zero iterators yields nothing. -/
def grouper {α : Type} (l : List α) (n : Nat) : List (List (Option α)) :=
  grouperGo l.length l n

/-- The inline-style core built by `convert_link_to_html` (lines 89-97):
the `style` list and its wrapping into a `style="..."` attribute. -/
def style1Of (width fontsize color : Option Val) : String :=
  let styleList : List String :=
    if truthyO width || truthyO fontsize || truthyO color then
      (if truthyO width then ["width: " ++ fstrO width ++ "px;"] else [])
        ++ (if truthyO fontsize then ["font-size: " ++ fstrO fontsize ++ "px;"] else [])
        ++ (if truthyO color then ["background-color: " ++ fstrO color ++ ";"] else [])
    else []
  if styleList.isEmpty then "" else " style=\"" ++ String.join styleList ++ "\""

/-- The full style/attribute string of `convert_link_to_html` (lines
89-103): the style attribute, then, when a hovered color is truthy, the
onMouseOver/onMouseOut attributes; onMouseOut restores
`color or defaults.button_color`. -/
def styleOf (width fontsize color hovered_color : Option Val) (defaults : Args) : String :=
  let style1 := style1Of width fontsize color
  if truthyO hovered_color then
    style1 ++ " onMouseOver=this.style.backgroundColor=\"" ++ fstrO hovered_color ++ "\""
      ++ " onMouseOut=this.style.backgroundColor=\""
      ++ (if truthyO color then fstrO color else defaults.button_color) ++ "\""
  else style1

/-- `convert_link_to_html` (lines 88-104): the final f-string, with the
style/attribute string spliced between the button tag and its content.
Values are interpolated verbatim (Python f-string), with no escaping. -/
def convert_link_to_html (text icon url : Val) (width fontsize color hovered_color : Option Val)
    (defaults : Args) : String :=
  "<a href=\"" ++ url.fstr ++ "\"><button class=\"btn\" "
    ++ styleOf width fontsize color hovered_color defaults
    ++ "> <i class=\"fa-solid fa-" ++ icon.fstr ++ "\"></i> &nbsp; " ++ text.fstr
    ++ " </button></a>"

/-- `json_repr_to_html` (lines 106-116): `dict.get` with defaults for
text/icon/url, plain `dict.get` (None when absent) for the style keys. -/
def json_repr_to_html (data : Record) (defaults : Args) : String :=
  convert_link_to_html
    (data.text.getD (Val.vstr ""))
    ((data.fa_icon).getD (Val.vstr "home"))
    (data.url.getD (Val.vstr "/"))
    data.button_width
    data.fontsize
    data.color
    data.hovered_color
    defaults

/-- One grid line (body of the loop in `convert_links_to_html`, line 132):
render every truthy slot (`if but_args` drops the None padding and any
falsy, i.e. empty, record dict) and join with a line break. -/
def line_to_html (line : List (Option Record)) (args : Args) : String :=
  pyJoin "\n"
    (line.filterMap (fun o =>
      match o with
      | some r => if r.truthy then some (json_repr_to_html r args) else none
      | none => none))

/-- `convert_links_to_html` (lines 129-133): group the records by
`max_button_per_line`, render each group as a line, join lines with a
break element. -/
def convert_links_to_html (all_links : List Record) (args : Args) : String :=
  pyJoin "<br/>" ((grouper all_links args.max_button_per_line).map (fun line => line_to_html line args))

/-- Does `small` occur at the head of `big`? -/
def leadEq : List Char → List Char → Bool
  | _, [] => true
  | [], _ :: _ => false
  | a :: as, b :: bs => a == b && leadEq as bs

/-- Does `small` occur somewhere inside `big`? -/
def hasSub (big small : List Char) : Bool :=
  if leadEq big small then true
  else
    match big with
    | [] => false
    | _ :: t => hasSub t small

/-- Substring test on strings. -/
def strHasSub (big small : String) : Bool :=
  hasSub big.data small.data

/-- Number of (possibly overlapping) occurrences of `small` in `big`. -/
def countOcc (big small : List Char) : Nat :=
  match big with
  | [] => 0
  | _ :: t => (if leadEq big small then 1 else 0) + countOcc t small

/-- Occurrence count on strings. -/
def countOccStr (big small : String) : Nat :=
  countOcc big.data small.data

/-- Python `str.endswith`. -/
def strEndsWith (s tail : String) : Bool :=
  leadEq s.data.reverse tail.data.reverse

/-- One character of markupsafe escaping. -/
def escChar (c : Char) : String :=
  if c = '&' then "&amp;"
  else if c = '<' then "&lt;"
  else if c = '>' then "&gt;"
  else if c = Char.ofNat 34 then "&#34;"
  else if c = Char.ofNat 39 then "&#39;"
  else String.singleton c

/-- Modelled from the spec: the HTML escaping the external template engine
(markupsafe) applies to string values; not part of src/. -/
def htmlEscape (s : String) : String :=
  String.join (s.data.map escChar)

/-- A value passed to a template: a plain string (escaped on render), an
integer, or markup already marked safe (`Markup`, inserted verbatim). -/
inductive TVal : Type
  | tstr (s : String)
  | tint (n : Int)
  | tmarkup (m : String)
deriving DecidableEq

/-- Modelled from the spec: the template collaborator contract — string
values are escaped by default, marked-safe values are inserted verbatim. -/
def renderVar : TVal → String
  | .tstr s => htmlEscape s
  | .tint n => toString n
  | .tmarkup m => m

/-- The parts of the filesystem `render_template` observes: which
directories exist, and the template files, each modelled post-parse as a
function from the substituted variables to the rendered text. -/
structure World where
  dirExists : String → Bool
  template : String → String → (List (String × String) → String)

/-- One output file written by `render_template`. -/
structure Write where
  dir : String
  file : String
  content : String
deriving DecidableEq

/-- The exceptions the pipeline can raise. -/
inductive Err : Type
  | notImplementedError (msg : String)
  | indexError
  | assertionError
  | jsonError (msg : String)
deriving DecidableEq

/-- `render_template` (lines 78-85): assert that the target directory
exists (AssertionError otherwise), read the template from the template
directory, substitute the variables (escaped per the collaborator
contract) and write the result under the same file name into the target
directory. -/
def render_template (template_name : String) (template_dir : String) (target_dir : String)
    (vars : List (String × TVal)) (w : World) : Except Err Write :=
  if w.dirExists target_dir then
    Except.ok
      { dir := target_dir
      , file := template_name
      , content := w.template template_dir template_name
          (vars.map (fun p => (p.1, renderVar p.2))) }
  else Except.error Err.assertionError

/-- One input file, modelled post-parse: the rows `csv.reader` would
produce from its text, and the value `json.loads` would produce (or the
parse failure). Text-level CSV/JSON parsing is the standard library's. -/
structure FileContent where
  csvRows : List (List String)
  jsonVal : Except String (List Record)

/-- One CSV row turned into a record (line 122): index `a[0]`, `a[1]`,
`a[2]` — IndexError when the row has fewer than three fields, fields
beyond the third unused. -/
def csvRowToRecord (row : List String) : Except Err Record :=
  match row with
  | a0 :: a1 :: a2 :: _ =>
    Except.ok
      { text := some (Val.vstr a0)
      , fa_icon := some (Val.vstr a1)
      , url := some (Val.vstr a2) }
  | _ => Except.error Err.indexError

/-- All CSV rows of a file (line 122): the generator inside `tuple(...)`
stops at the first failing row. -/
def csvLoad (rows : List (List String)) : Except Err (List Record) :=
  match rows with
  | [] => Except.ok []
  | row :: rest =>
    match csvRowToRecord row with
    | Except.error e => Except.error e
    | Except.ok r =>
      match csvLoad rest with
      | Except.error e => Except.error e
      | Except.ok rs => Except.ok (r :: rs)

/-- `links_repr_from_file` (lines 119-126): dispatch on the file name
ending; any other name raises NotImplementedError. -/
def links_repr_from_file (infile : String) (fs : String → FileContent) : Except Err (List Record) :=
  if strEndsWith infile ".csv" then csvLoad (fs infile).csvRows
  else if strEndsWith infile ".json" then
    match (fs infile).jsonVal with
    | Except.ok recs => Except.ok recs
    | Except.error m => Except.error (Err.jsonError m)
  else Except.error (Err.notImplementedError ("Cannot handle file " ++ infile ++ " (not a json nor a csv)"))

/-- `sum(map(links_repr_from_file, args.infiles), ())` (line 139): load
every input file, concatenating, before anything is rendered; the first
failure aborts. -/
def loadAll (infiles : List String) (fs : String → FileContent) : Except Err (List Record) :=
  match infiles with
  | [] => Except.ok []
  | f :: rest =>
    match links_repr_from_file f fs with
    | Except.error e => Except.error e
    | Except.ok l =>
      match loadAll rest fs with
      | Except.error e => Except.error e
      | Except.ok ls => Except.ok (l ++ ls)

/-- The `__main__` block (lines 137-141): load all files, then render
`index.html` into the CLI outdir from the CLI template dir with the button
markup marked safe, then render `index.css` — the second call passes no
template_dir/target_dir, so the parameter defaults `templates/` and `out/`
apply.  Returns the writes performed (in order) and the error, if any,
that aborted the run. -/
def mainRun (infiles : List String) (fs : String → FileContent) (w : World) (args : Args) :
    List Write × Option Err :=
  match loadAll infiles fs with
  | Except.error e => ([], some e)
  | Except.ok links =>
    match render_template "index.html" args.template_dir args.outdir
        [("buttons", TVal.tmarkup (convert_links_to_html links args))] w with
    | Except.error e => ([], some e)
    | Except.ok w1 =>
      match render_template "index.css" "templates/" "out/"
          [("button_width", TVal.tint args.button_width),
           ("button_height", TVal.tint args.button_height),
           ("hover_button_color", TVal.tstr args.hover_button_color),
           ("button_color", TVal.tstr args.button_color)] w with
      | Except.error e => ([w1], some e)
      | Except.ok w2 => ([w1, w2], none)

/-! ## Helper lemmas -/

theorem grouperGo_fuel {α : Type} :
    ∀ (fuel fuel' : Nat) (l : List α) (n : Nat), l.length ≤ fuel → l.length ≤ fuel' →
      grouperGo fuel l n = grouperGo fuel' l n := by
  intro fuel
  induction fuel with
  | zero =>
    intro fuel' l n h h'
    have hl : l = [] := by cases l with
      | nil => rfl
      | cons a t => simp at h
    subst hl
    cases fuel' <;> cases n <;> rfl
  | succ fuel ih =>
    intro fuel' l n h h'
    cases l with
    | nil => cases fuel' <;> cases n <;> rfl
    | cons a t =>
      cases n with
      | zero => cases fuel' <;> rfl
      | succ m =>
        cases fuel' with
        | zero => simp at h'
        | succ fuel' =>
          show _ :: grouperGo fuel ((a :: t).drop (m + 1)) (m + 1)
              = _ :: grouperGo fuel' ((a :: t).drop (m + 1)) (m + 1)
          congr 1
          apply ih
          · simp only [List.length_drop, List.length_cons] at *
            omega
          · simp only [List.length_drop, List.length_cons] at *
            omega

theorem grouper_nil {α : Type} (n : Nat) : grouper ([] : List α) n = [] := by
  cases n <;> rfl

theorem grouper_zero {α : Type} (l : List α) : grouper l 0 = [] := by
  cases l <;> rfl

theorem grouper_cons {α : Type} (a : α) (t : List α) (m : Nat) :
    grouper (a :: t) (m + 1)
      = (((a :: t).take (m + 1)).map some ++ List.replicate ((m + 1) - (a :: t).length) none)
        :: grouper ((a :: t).drop (m + 1)) (m + 1) := by
  show grouperGo (t.length + 1) (a :: t) (m + 1) = _
  rw [grouperGo]
  congr 1
  apply grouperGo_fuel
  · simp only [List.length_drop, List.length_cons]
    omega
  · exact le_refl _

theorem str_append_empty (s : String) : s ++ "" = s := by
  cases s with
  | mk data => exact congrArg String.mk (List.append_nil data)

theorem leadEq_append : ∀ (small rest : List Char), leadEq (small ++ rest) small = true := by
  intro small
  induction small with
  | nil => intro rest; cases rest <;> rfl
  | cons b bs ih => intro rest; simp [leadEq, ih rest]

theorem hasSub_extend (c : Char) (t small : List Char) (h : hasSub t small = true) :
    hasSub (c :: t) small = true := by
  rw [hasSub.eq_def]
  by_cases hl : leadEq (c :: t) small = true
  · simp [hl]
  · simp only [hl, Bool.false_eq_true, if_false]
    exact h

theorem hasSub_decomp : ∀ (l m r : List Char), hasSub (l ++ m ++ r) m = true := by
  intro l
  induction l with
  | nil =>
    intro m r
    rw [hasSub.eq_def]
    simp [leadEq_append]
  | cons c t ih =>
    intro m r
    exact hasSub_extend c _ _ (ih m r)

theorem strHasSub_decomp (l m r : String) : strHasSub (l ++ m ++ r) m = true := by
  show hasSub (l ++ m ++ r).data m.data = true
  have h : (l ++ m ++ r).data = l.data ++ m.data ++ r.data := by
    simp [String.data_append]
  rw [h]
  exact hasSub_decomp l.data m.data r.data

theorem strHasSub_of_eq (big l m r : String) (h : big = l ++ m ++ r) :
    strHasSub big m = true := by
  rw [h]
  exact strHasSub_decomp l m r

theorem pyJoin_mem (sep : String) :
    ∀ (xs : List String) (x : String), x ∈ xs → ∃ p q, pyJoin sep xs = p ++ x ++ q := by
  intro xs
  induction xs with
  | nil => intro x hx; cases hx
  | cons a t ih =>
    intro x hx
    rcases List.mem_cons.mp hx with hx | hx
    · subst hx
      cases t with
      | nil =>
        refine ⟨"", "", ?_⟩
        rw [str_append_empty]
        rfl
      | cons y ys =>
        refine ⟨"", sep ++ pyJoin sep (y :: ys), ?_⟩
        show x ++ sep ++ pyJoin sep (y :: ys) = "" ++ x ++ (sep ++ pyJoin sep (y :: ys))
        simp [String.append_assoc]
    · have hne : ∃ y ys, t = y :: ys := by
        cases t with
        | nil => cases hx
        | cons y ys => exact ⟨y, ys, rfl⟩
      obtain ⟨y, ys, rfl⟩ := hne
      obtain ⟨p, q, hpq⟩ := ih x hx
      refine ⟨a ++ sep ++ p, q, ?_⟩
      show a ++ sep ++ pyJoin sep (y :: ys) = a ++ sep ++ p ++ x ++ q
      rw [hpq]
      simp [String.append_assoc]

theorem filterMap_id_map_some {α : Type} (l : List α) : (l.map some).filterMap id = l := by
  induction l with
  | nil => rfl
  | cons a t ih => simp [ih]

theorem filterMap_id_replicate_none {α : Type} (m : Nat) :
    (List.replicate m (none : Option α)).filterMap id = [] := by
  induction m with
  | zero => rfl
  | succ m ih => simp [List.replicate_succ, ih]

theorem chunk_filterMap {α : Type} (l : List α) (n k : Nat) :
    ((l.take n).map some ++ List.replicate k (none : Option α)).filterMap id = l.take n := by
  rw [List.filterMap_append, filterMap_id_map_some, filterMap_id_replicate_none, List.append_nil]

theorem grouper_join {α : Type} (K : Nat) (hK : 1 ≤ K) :
    ∀ (l : List α), ((grouper l K).map (fun g => g.filterMap id)).flatten = l := by
  have main : ∀ (N : Nat) (l : List α), l.length ≤ N →
      ((grouper l K).map (fun g => g.filterMap id)).flatten = l := by
    intro N
    induction N with
    | zero =>
      intro l hl
      have hnil : l = [] := List.eq_nil_of_length_eq_zero (Nat.le_zero.mp hl)
      subst hnil
      rw [grouper_nil]
      rfl
    | succ N ih =>
      intro l hl
      cases l with
      | nil => rw [grouper_nil]; rfl
      | cons a t =>
        obtain ⟨m, rfl⟩ : ∃ m, K = m + 1 := ⟨K - 1, by omega⟩
        rw [grouper_cons]
        simp only [List.map_cons, List.flatten_cons]
        rw [chunk_filterMap]
        rw [ih ((a :: t).drop (m + 1)) (by simp only [List.length_drop, List.length_cons] at *; omega)]
        exact List.take_append_drop _ _
  exact fun l => main l.length l (le_refl _)

theorem grouper_length {α : Type} (K : Nat) (hK : 1 ≤ K) :
    ∀ (l : List α), (grouper l K).length = (l.length + K - 1) / K := by
  have main : ∀ (N : Nat) (l : List α), l.length ≤ N →
      (grouper l K).length = (l.length + K - 1) / K := by
    intro N
    induction N with
    | zero =>
      intro l hl
      have hnil : l = [] := List.eq_nil_of_length_eq_zero (Nat.le_zero.mp hl)
      subst hnil
      rw [grouper_nil]
      simp [Nat.div_eq_of_lt (show K - 1 < K by omega)]
    | succ N ih =>
      intro l hl
      cases l with
      | nil =>
        rw [grouper_nil]
        simp [Nat.div_eq_of_lt (show K - 1 < K by omega)]
      | cons a t =>
        obtain ⟨m, rfl⟩ : ∃ m, K = m + 1 := ⟨K - 1, by omega⟩
        rw [grouper_cons]
        simp only [List.length_cons]
        rw [ih ((a :: t).drop (m + 1)) (by simp only [List.length_drop, List.length_cons] at *; omega)]
        simp only [List.length_drop, List.length_cons]
        have hR : t.length + 1 + (m + 1) - 1 = t.length + (m + 1) := by omega
        rw [hR, Nat.add_div_right _ (show 0 < m + 1 by omega)]
        congr 1
        by_cases hc : t.length + 1 ≤ m + 1
        · have h1 : t.length + 1 - (m + 1) + (m + 1) - 1 = m := by omega
          rw [h1, Nat.div_eq_of_lt (by omega), Nat.div_eq_of_lt (by omega)]
        · have h1 : t.length + 1 - (m + 1) + (m + 1) - 1 = t.length := by omega
          rw [h1]
  exact fun l => main l.length l (le_refl _)

theorem grouper_size_bounds {α : Type} (K : Nat) (hK : 1 ≤ K) :
    ∀ (l : List α), ∀ g ∈ grouper l K,
      1 ≤ (g.filterMap id).length ∧ (g.filterMap id).length ≤ K := by
  have main : ∀ (N : Nat) (l : List α), l.length ≤ N → ∀ g ∈ grouper l K,
      1 ≤ (g.filterMap id).length ∧ (g.filterMap id).length ≤ K := by
    intro N
    induction N with
    | zero =>
      intro l hl
      have hnil : l = [] := List.eq_nil_of_length_eq_zero (Nat.le_zero.mp hl)
      subst hnil
      rw [grouper_nil]
      intro g hg
      cases hg
    | succ N ih =>
      intro l hl
      cases l with
      | nil =>
        rw [grouper_nil]
        intro g hg
        cases hg
      | cons a t =>
        obtain ⟨m, rfl⟩ : ∃ m, K = m + 1 := ⟨K - 1, by omega⟩
        rw [grouper_cons]
        intro g hg
        rcases List.mem_cons.mp hg with hg | hg
        · subst hg
          rw [chunk_filterMap]
          simp only [List.length_take, List.length_cons]
          omega
        · exact ih ((a :: t).drop (m + 1))
            (by simp only [List.length_drop, List.length_cons] at *; omega) g hg
  exact fun l => main l.length l (le_refl _)

theorem grouper_dropLast_size {α : Type} (K : Nat) (hK : 1 ≤ K) :
    ∀ (l : List α), ∀ g ∈ (grouper l K).dropLast, (g.filterMap id).length = K := by
  have main : ∀ (N : Nat) (l : List α), l.length ≤ N →
      ∀ g ∈ (grouper l K).dropLast, (g.filterMap id).length = K := by
    intro N
    induction N with
    | zero =>
      intro l hl
      have hnil : l = [] := List.eq_nil_of_length_eq_zero (Nat.le_zero.mp hl)
      subst hnil
      rw [grouper_nil]
      intro g hg
      cases hg
    | succ N ih =>
      intro l hl
      cases l with
      | nil =>
        rw [grouper_nil]
        intro g hg
        cases hg
      | cons a t =>
        obtain ⟨m, rfl⟩ : ∃ m, K = m + 1 := ⟨K - 1, by omega⟩
        rw [grouper_cons]
        by_cases hdrop : (a :: t).drop (m + 1) = []
        · rw [hdrop, grouper_nil]
          intro g hg
          cases hg
        · cases hrest : grouper ((a :: t).drop (m + 1)) (m + 1) with
          | nil =>
            exfalso
            cases hd : (a :: t).drop (m + 1) with
            | nil => exact hdrop hd
            | cons b u =>
              rw [hd, grouper_cons] at hrest
              cases hrest
          | cons r rs =>
            intro g hg
            rw [List.dropLast_cons₂] at hg
            rcases List.mem_cons.mp hg with hg | hg
            · subst hg
              rw [chunk_filterMap]
              have hlen : m + 1 < (a :: t).length := by
                by_contra hle
                exact hdrop (List.drop_eq_nil_of_le (by omega))
              simp only [List.length_take, List.length_cons]
              simp only [List.length_cons] at hlen
              omega
            · have := ih ((a :: t).drop (m + 1))
                (by simp only [List.length_drop, List.length_cons] at *; omega) g
              rw [hrest] at this
              exact this hg
  exact fun l => main l.length l (le_refl _)

theorem grouper_mem {α : Type} (K : Nat) (hK : 1 ≤ K) :
    ∀ (l : List α), ∀ r ∈ l, ∃ g ∈ grouper l K, some r ∈ g := by
  have main : ∀ (N : Nat) (l : List α), l.length ≤ N →
      ∀ r ∈ l, ∃ g ∈ grouper l K, some r ∈ g := by
    intro N
    induction N with
    | zero =>
      intro l hl r hr
      have hnil : l = [] := List.eq_nil_of_length_eq_zero (Nat.le_zero.mp hl)
      subst hnil
      cases hr
    | succ N ih =>
      intro l hl r hr
      cases l with
      | nil => cases hr
      | cons a t =>
        obtain ⟨m, rfl⟩ : ∃ m, K = m + 1 := ⟨K - 1, by omega⟩
        rw [grouper_cons]
        have hr' : r ∈ (a :: t).take (m + 1) ++ (a :: t).drop (m + 1) := by
          rw [List.take_append_drop]
          exact hr
        rcases List.mem_append.mp hr' with h | h
        · exact ⟨_, List.mem_cons_self _ _,
            List.mem_append_left _ (List.mem_map_of_mem some h)⟩
        · obtain ⟨g, hg, hrg⟩ := ih ((a :: t).drop (m + 1))
            (by simp only [List.length_drop, List.length_cons] at *; omega) r h
          exact ⟨g, List.mem_cons_of_mem _ hg, hrg⟩
  exact fun l => main l.length l (le_refl _)

/-- Drop a value exactly when Python finds it falsy. -/
def keepTruthy (o : Option Val) : Option Val :=
  if truthyO o then o else none

theorem truthyO_none : truthyO none = false := rfl

theorem keepTruthy_of_true (o : Option Val) (h : truthyO o = true) : keepTruthy o = o := by
  simp [keepTruthy, h]

theorem keepTruthy_of_false (o : Option Val) (h : truthyO o = false) : keepTruthy o = none := by
  simp [keepTruthy, h]

theorem truthyO_keepTruthy (o : Option Val) : truthyO (keepTruthy o) = truthyO o := by
  cases ho : truthyO o
  · rw [keepTruthy_of_false o ho]
    exact truthyO_none
  · rw [keepTruthy_of_true o ho]
    exact ho

theorem styleOf_hover (w f c hc : Option Val) (d : Args) (hhc : truthyO hc = true) :
    styleOf w f c hc d
      = style1Of w f c ++ " onMouseOver=this.style.backgroundColor=\"" ++ fstrO hc ++ "\""
        ++ " onMouseOut=this.style.backgroundColor=\""
        ++ (if truthyO c then fstrO c else d.button_color) ++ "\"" := by
  simp [styleOf, hhc]

theorem styleOf_no_hover (w f c hc : Option Val) (d : Args) (hhc : truthyO hc = false) :
    styleOf w f c hc d = style1Of w f c := by
  simp [styleOf, hhc]

theorem style1Of_falsy (w f c : Option Val) (hw : truthyO w = false)
    (hf : truthyO f = false) (hc : truthyO c = false) : style1Of w f c = "" := by
  simp [style1Of, hw, hf, hc]

theorem convert_link_contains_url (t i u : Val) (w f c hc : Option Val) (d : Args) :
    strHasSub (convert_link_to_html t i u w f c hc d) u.fstr = true := by
  apply strHasSub_of_eq _ "<a href=\"" u.fstr
    ("\"><button class=\"btn\" " ++ styleOf w f c hc d ++ "> <i class=\"fa-solid fa-"
      ++ i.fstr ++ "\"></i> &nbsp; " ++ t.fstr ++ " </button></a>")
  simp [convert_link_to_html, String.append_assoc]

theorem convert_link_contains_icon (t i u : Val) (w f c hc : Option Val) (d : Args) :
    strHasSub (convert_link_to_html t i u w f c hc d) i.fstr = true := by
  apply strHasSub_of_eq _
    ("<a href=\"" ++ u.fstr ++ "\"><button class=\"btn\" " ++ styleOf w f c hc d
      ++ "> <i class=\"fa-solid fa-")
    i.fstr
    ("\"></i> &nbsp; " ++ t.fstr ++ " </button></a>")
  simp [convert_link_to_html, String.append_assoc]

theorem convert_link_contains_text (t i u : Val) (w f c hc : Option Val) (d : Args) :
    strHasSub (convert_link_to_html t i u w f c hc d) t.fstr = true := by
  apply strHasSub_of_eq _
    ("<a href=\"" ++ u.fstr ++ "\"><button class=\"btn\" " ++ styleOf w f c hc d
      ++ "> <i class=\"fa-solid fa-" ++ i.fstr ++ "\"></i> &nbsp; ")
    t.fstr
    " </button></a>"
  simp [convert_link_to_html, String.append_assoc]

theorem convert_link_hover_sub (t i u : Val) (w f c hc : Option Val) (d : Args)
    (hhc : truthyO hc = true) :
    strHasSub (convert_link_to_html t i u w f c hc d)
      (" onMouseOver=this.style.backgroundColor=\"" ++ fstrO hc ++ "\""
        ++ " onMouseOut=this.style.backgroundColor=\""
        ++ (if truthyO c then fstrO c else d.button_color) ++ "\"") = true := by
  apply strHasSub_of_eq _
    ("<a href=\"" ++ u.fstr ++ "\"><button class=\"btn\" " ++ style1Of w f c)
    _
    ("> <i class=\"fa-solid fa-" ++ i.fstr ++ "\"></i> &nbsp; " ++ t.fstr ++ " </button></a>")
  simp only [convert_link_to_html, styleOf_hover w f c hc d hhc, String.append_assoc]

theorem convert_link_mouse_out_sub (t i u : Val) (w f c hc : Option Val) (d : Args)
    (hhc : truthyO hc = true) :
    strHasSub (convert_link_to_html t i u w f c hc d)
      (" onMouseOut=this.style.backgroundColor=\""
        ++ (if truthyO c then fstrO c else d.button_color) ++ "\"") = true := by
  apply strHasSub_of_eq _
    ("<a href=\"" ++ u.fstr ++ "\"><button class=\"btn\" " ++ style1Of w f c
      ++ " onMouseOver=this.style.backgroundColor=\"" ++ fstrO hc ++ "\"")
    _
    ("> <i class=\"fa-solid fa-" ++ i.fstr ++ "\"></i> &nbsp; " ++ t.fstr ++ " </button></a>")
  simp only [convert_link_to_html, styleOf_hover w f c hc d hhc, String.append_assoc]

theorem convert_link_keepTruthy (t i u : Val) (w f c hc : Option Val) (d : Args) :
    convert_link_to_html t i u w f c hc d
      = convert_link_to_html t i u (keepTruthy w) (keepTruthy f) (keepTruthy c) (keepTruthy hc) d := by
  have hstyle : styleOf w f c hc d
      = styleOf (keepTruthy w) (keepTruthy f) (keepTruthy c) (keepTruthy hc) d := by
    cases hw : truthyO w <;> cases hf : truthyO f <;> cases hc2 : truthyO c <;>
      cases hh : truthyO hc <;>
        simp [styleOf, style1Of, keepTruthy_of_true, keepTruthy_of_false,
          hw, hf, hc2, hh, truthyO_none]
  simp [convert_link_to_html, hstyle]

theorem loadAll_error (fs : String → FileContent) :
    ∀ (infiles : List String) (f : String), f ∈ infiles →
      strEndsWith f ".csv" = false → strEndsWith f ".json" = false →
      ∃ e, loadAll infiles fs = Except.error e := by
  intro infiles
  induction infiles with
  | nil => intro f hf; cases hf
  | cons a rest ih =>
    intro f hf h1 h2
    rcases List.mem_cons.mp hf with hf | hf
    · subst hf
      exact ⟨Err.notImplementedError ("Cannot handle file " ++ f ++ " (not a json nor a csv)"),
        by simp [loadAll, links_repr_from_file, h1, h2]⟩
    · cases hload : links_repr_from_file a fs with
      | error e => exact ⟨e, by simp [loadAll, hload]⟩
      | ok l =>
        obtain ⟨e, he⟩ := ih f hf h1 h2
        exact ⟨e, by simp [loadAll, hload, he]⟩

theorem mainRun_load_error (infiles : List String) (fs : String → FileContent) (w : World)
    (args : Args) (e : Err) (h : loadAll infiles fs = Except.error e) :
    mainRun infiles fs w args = ([], some e) := by
  simp [mainRun, h]

theorem str_empty_append (s : String) : "" ++ s = s := rfl

theorem convert_links_contains (l : List Record) (r : Record) (args : Args)
    (hmem : r ∈ l) (htr : r.truthy = true) (hK : 1 ≤ args.max_button_per_line) :
    strHasSub (convert_links_to_html l args) (json_repr_to_html r args) = true := by
  obtain ⟨g, hg, hrg⟩ := grouper_mem args.max_button_per_line hK l r hmem
  have hfrag : json_repr_to_html r args ∈
      g.filterMap (fun o =>
        match o with
        | some r => if r.truthy then some (json_repr_to_html r args) else none
        | none => none) := by
    apply List.mem_filterMap.mpr
    exact ⟨some r, hrg, by simp [htr]⟩
  obtain ⟨p, q, hpq⟩ := pyJoin_mem "\n" _ _ hfrag
  have hline : line_to_html g args = p ++ json_repr_to_html r args ++ q := hpq
  have hlmem : line_to_html g args
      ∈ (grouper l args.max_button_per_line).map (fun line => line_to_html line args) :=
    List.mem_map_of_mem _ hg
  obtain ⟨P, Q, hPQ⟩ := pyJoin_mem "<br/>" _ _ hlmem
  apply strHasSub_of_eq _ (P ++ p) _ (q ++ Q)
  show convert_links_to_html l args = _
  rw [convert_links_to_html, hPQ, hline]
  simp [String.append_assoc]

/-- Sample records and configurations used by the concrete instances. -/
def recA : Record := { text := some (Val.vstr "A") }

def recB : Record := { text := some (Val.vstr "B") }

def recC : Record := { text := some (Val.vstr "C") }

def baseArgs : Args := {}

/-! ## Claims -/

def c1Rec : Record :=
  { text := some (Val.vstr "<b>"), fa_icon := some (Val.vstr "home"),
    url := some (Val.vstr "https://x") }

/-- C1, counterexample: the claim says record values appear HTML-escaped in
the produced fragment; for the record with text `<b>` the fragment contains
the raw `<b>` but not its escaped form `&lt;b&gt;` — `convert_link_to_html`
interpolates values verbatim and the whole fragment is marked safe. -/
theorem c1_counterexample :
    htmlEscape "<b>" = "&lt;b&gt;"
    ∧ strHasSub (json_repr_to_html c1Rec baseArgs) "<b>" = true
    ∧ strHasSub (json_repr_to_html c1Rec baseArgs) (htmlEscape "<b>") = false :=
  ⟨by decide, by decide, by decide⟩

/-- C1 (amended): for every JSON record carrying the text, icon and URL
keys, all three values appear verbatim — with no HTML escaping — in the
fragment produced for that record; escaping applies only to template-level
string variables, and the already-rendered button markup is marked safe
and bypasses it. -/
theorem c1_values_verbatim_unescaped :
    ∀ (t i u : String) (w f c hc : Option Val) (args : Args),
      strHasSub (json_repr_to_html
        { text := some (Val.vstr t), fa_icon := some (Val.vstr i), url := some (Val.vstr u),
          button_width := w, fontsize := f, color := c, hovered_color := hc } args) t = true
      ∧ strHasSub (json_repr_to_html
        { text := some (Val.vstr t), fa_icon := some (Val.vstr i), url := some (Val.vstr u),
          button_width := w, fontsize := f, color := c, hovered_color := hc } args) i = true
      ∧ strHasSub (json_repr_to_html
        { text := some (Val.vstr t), fa_icon := some (Val.vstr i), url := some (Val.vstr u),
          button_width := w, fontsize := f, color := c, hovered_color := hc } args) u = true
      ∧ (∀ m, renderVar (TVal.tmarkup m) = m)
      ∧ (∀ s, renderVar (TVal.tstr s) = htmlEscape s) := by
  intro t i u w f c hc args
  exact ⟨convert_link_contains_text (Val.vstr t) (Val.vstr i) (Val.vstr u) w f c hc args,
    convert_link_contains_icon (Val.vstr t) (Val.vstr i) (Val.vstr u) w f c hc args,
    convert_link_contains_url (Val.vstr t) (Val.vstr i) (Val.vstr u) w f c hc args,
    fun m => rfl, fun s => rfl⟩

/-- C2: for every sequence of records and every max-per-line K at least 1,
the grid partitions the records, in input order with no sorting or
deduplication, into ceil(N/K) consecutive groups, each holding K records
except possibly the last; each group's fragments are joined by a line
break and groups are joined by one `<br/>` each, so three records with
K = 2 yield exactly one inter-group break. -/
theorem c2_grid_partition :
    ∀ (l : List Record) (K : Nat), 1 ≤ K →
      (grouper l K).length = (l.length + K - 1) / K
      ∧ ((grouper l K).map (fun g => g.filterMap id)).flatten = l
      ∧ (∀ g ∈ (grouper l K).dropLast, (g.filterMap id).length = K)
      ∧ (∀ g ∈ grouper l K, 1 ≤ (g.filterMap id).length ∧ (g.filterMap id).length ≤ K)
      ∧ (∀ args : Args, args.max_button_per_line = K →
          convert_links_to_html l args
            = pyJoin "<br/>" ((grouper l K).map (fun line => line_to_html line args)))
      ∧ countOccStr (convert_links_to_html [recA, recB, recC] baseArgs) "<br/>" = 1 := by
  intro l K hK
  refine ⟨grouper_length K hK l, grouper_join K hK l, grouper_dropLast_size K hK l,
    grouper_size_bounds K hK l, ?_, by decide⟩
  intro args hargs
  rw [convert_links_to_html, hargs]

theorem c2_witness :
    (grouper [recA, recB, recC] 2).length = ([recA, recB, recC].length + 2 - 1) / 2
    ∧ countOccStr (convert_links_to_html [recA, recB, recC] baseArgs) "<br/>" = 1 :=
  ⟨(c2_grid_partition [recA, recB, recC] 2 (by decide)).1,
    (c2_grid_partition [recA, recB, recC] 2 (by decide)).2.2.2.2.2⟩

def c3Fs : String → FileContent := fun _ => { csvRows := [], jsonVal := Except.ok [] }

def c3World : World := { dirExists := fun _ => true, template := fun _ _ _ => "" }

/-- C3: if any input file name ends in neither `.csv` nor `.json`, the run
fails (the loading pass raises before any rendering) and no output file is
written: all input files are loaded before the first template write. -/
theorem c3_unsupported_extension_aborts :
    ∀ (infiles : List String) (f : String) (fs : String → FileContent) (w : World) (args : Args),
      f ∈ infiles → strEndsWith f ".csv" = false → strEndsWith f ".json" = false →
      (mainRun infiles fs w args).1 = [] ∧ (mainRun infiles fs w args).2.isSome = true := by
  intro infiles f fs w args hmem h1 h2
  obtain ⟨e, he⟩ := loadAll_error fs infiles f hmem h1 h2
  rw [mainRun_load_error infiles fs w args e he]
  exact ⟨rfl, rfl⟩

theorem c3_witness :
    (mainRun ["links.json", "a.txt"] c3Fs c3World baseArgs).1 = []
    ∧ (mainRun ["links.json", "a.txt"] c3Fs c3World baseArgs).2.isSome = true :=
  c3_unsupported_extension_aborts ["links.json", "a.txt"] "a.txt" c3Fs c3World baseArgs
    (by decide) (by decide) (by decide)

def c4Fs : String → FileContent :=
  fun _ => { csvRows := [["a", "b", "c", "d"]], jsonVal := Except.ok [] }

def c4Rec : Record :=
  { text := some (Val.vstr "a"), fa_icon := some (Val.vstr "b"), url := some (Val.vstr "c") }

/-- C4, counterexample: the claim says a CSV row whose field count differs
from three fails; a four-field row loads successfully, its first three
fields used and the rest ignored. -/
theorem c4_counterexample :
    (["a", "b", "c", "d"] : List String).length ≠ 3
    ∧ links_repr_from_file "links.csv" c4Fs = Except.ok [c4Rec] :=
  ⟨by decide, rfl⟩

/-- C4 (amended): loading a CSV row with fewer than three fields fails
with an index error and no bad row is skipped (any such row anywhere
aborts the whole load); rows with three or more fields are accepted, the
first three fields used; and `.csv` files are loaded through this very
row conversion. -/
theorem c4_csv_row_arity :
    ∀ (rows : List (List String)),
      ((∃ row ∈ rows, row.length < 3) → ∃ e, csvLoad rows = Except.error e)
      ∧ ((∀ row ∈ rows, 3 ≤ row.length) →
          ∃ recs, csvLoad rows = Except.ok recs ∧ recs.length = rows.length)
      ∧ (∀ (name : String) (fs : String → FileContent), strEndsWith name ".csv" = true →
          links_repr_from_file name fs = csvLoad (fs name).csvRows) := by
  intro rows
  refine ⟨?_, ?_, ?_⟩
  · intro ⟨row, hrow, hlen⟩
    induction rows with
    | nil => cases hrow
    | cons hd tl ih =>
      rcases List.mem_cons.mp hrow with hr | hr
      · subst hr
        have hshort : csvRowToRecord row = Except.error Err.indexError := by
          rcases row with _ | ⟨a, _ | ⟨b, _ | ⟨c, rest⟩⟩⟩
          · rfl
          · rfl
          · rfl
          · exfalso; simp only [List.length_cons] at hlen; omega
        exact ⟨Err.indexError, by simp [csvLoad, hshort]⟩
      · obtain ⟨e, he⟩ := ih hr
        cases hhd : csvRowToRecord hd with
        | error e2 => exact ⟨e2, by simp [csvLoad, hhd]⟩
        | ok r => exact ⟨e, by simp [csvLoad, hhd, he]⟩
  · intro hall
    induction rows with
    | nil => exact ⟨[], rfl, rfl⟩
    | cons hd tl ih =>
      have hhd : 3 ≤ hd.length := hall hd (List.mem_cons_self _ _)
      have hr : ∃ r, csvRowToRecord hd = Except.ok r := by
        rcases hd with _ | ⟨a, _ | ⟨b, _ | ⟨c, rest⟩⟩⟩
        · exfalso; simp at hhd
        · exfalso; simp at hhd
        · exfalso; simp only [List.length_cons, List.length_nil] at hhd; omega
        · exact ⟨_, rfl⟩
      obtain ⟨r, hr⟩ := hr
      obtain ⟨recs, hrecs, hlen⟩ := ih (fun row hrow => hall row (List.mem_cons_of_mem _ hrow))
      exact ⟨r :: recs, by simp [csvLoad, hr, hrecs], by simp [hlen]⟩
  · intro name fs h
    simp [links_repr_from_file, h]

theorem c4_witness :
    (∃ e, csvLoad [["a", "b"]] = Except.error e)
    ∧ (∃ recs, csvLoad [["a", "b", "c"]] = Except.ok recs
        ∧ recs.length = [["a", "b", "c"]].length) :=
  ⟨(c4_csv_row_arity [["a", "b"]]).1 ⟨["a", "b"], by decide, by decide⟩,
    (c4_csv_row_arity [["a", "b", "c"]]).2.1 (by decide)⟩

/-- C5, counterexample: the claim says a record with no keys at all still
produces a button fragment in the grid; the empty record is falsy, so the
grid's truthiness filter silently drops it — the grid for the single empty
record is the empty string with no button fragment. -/
theorem c5_counterexample :
    Record.truthy {} = false
    ∧ convert_links_to_html [{}] baseArgs = ""
    ∧ countOccStr (convert_links_to_html [{}] baseArgs) "<button" = 0 :=
  ⟨rfl, by decide, by decide⟩

/-- C5 (amended): for every record with at least one key present,
rendering never fails on missing optional fields — text defaults to the
empty string, the icon to "home", the URL to the root path, style keys to
None and thence to configured defaults — and the record's fragment appears
in the grid; a record with no keys at all is silently skipped by the
grid's truthiness filter (still no error). -/
theorem c5_nonempty_record_renders :
    ∀ (l : List Record) (r : Record) (args : Args),
      r ∈ l → r.truthy = true → 1 ≤ args.max_button_per_line →
      strHasSub (convert_links_to_html l args) (json_repr_to_html r args) = true
      ∧ (∀ (data : Record) (d : Args),
          json_repr_to_html data d
            = convert_link_to_html (data.text.getD (Val.vstr ""))
                ((data.fa_icon).getD (Val.vstr "home")) (data.url.getD (Val.vstr "/"))
                data.button_width data.fontsize data.color data.hovered_color d) := by
  intro l r args hmem htr hK
  exact ⟨convert_links_contains l r args hmem htr hK, fun data d => rfl⟩

theorem c5_witness :
    strHasSub (convert_links_to_html [recA] baseArgs) (json_repr_to_html recA baseArgs) = true :=
  (c5_nonempty_record_renders [recA] recA baseArgs (by decide) (by decide) (by decide)).1

def c6Frag : String :=
  convert_link_to_html (Val.vstr "CV") (Val.vstr "home") (Val.vstr "/") none none
    (some (Val.vstr "")) (some (Val.vstr "Pink")) baseArgs

/-- C6, counterexample: the claim says the hover-exit attribute restores
the record's explicit color whenever one is present; for a record whose
color key is present but empty, the code restores the global default
("DarkOrange") instead of the present, empty color — the choice is by
truthiness, not presence. -/
theorem c6_counterexample :
    strHasSub c6Frag "onMouseOut=this.style.backgroundColor=\"\"" = false
    ∧ strHasSub c6Frag "onMouseOut=this.style.backgroundColor=\"DarkOrange\"" = true :=
  ⟨by decide, by decide⟩

/-- C6 (amended): whenever the hover color is truthy, the fragment carries
the mouse-enter attribute setting the background to the hover color and
the mouse-exit attribute restoring the record's color when that is truthy
and the global default button color otherwise; when the hover color is
absent or falsy, no such attributes are attached and the fragment equals
the one rendered without a hover color. -/
theorem c6_hover_attributes :
    ∀ (t i u : Val) (w f c hc : Option Val) (d : Args),
      (truthyO hc = true →
        strHasSub (convert_link_to_html t i u w f c hc d)
          (" onMouseOver=this.style.backgroundColor=\"" ++ fstrO hc ++ "\""
            ++ " onMouseOut=this.style.backgroundColor=\""
            ++ (if truthyO c then fstrO c else d.button_color) ++ "\"") = true)
      ∧ (truthyO hc = false →
          styleOf w f c hc d = style1Of w f c
          ∧ convert_link_to_html t i u w f c hc d = convert_link_to_html t i u w f c none d) := by
  intro t i u w f c hc d
  constructor
  · intro hhc
    exact convert_link_hover_sub t i u w f c hc d hhc
  · intro hhc
    refine ⟨styleOf_no_hover w f c hc d hhc, ?_⟩
    simp only [convert_link_to_html, styleOf_no_hover w f c hc d hhc,
      styleOf_no_hover w f c none d truthyO_none]

theorem c6_witness :
    strHasSub
      (convert_link_to_html (Val.vstr "CV") (Val.vstr "home") (Val.vstr "/") none none
        (some (Val.vstr "ForestGreen")) (some (Val.vstr "Pink")) baseArgs)
      (" onMouseOver=this.style.backgroundColor=\"" ++ fstrO (some (Val.vstr "Pink")) ++ "\""
        ++ " onMouseOut=this.style.backgroundColor=\""
        ++ (if truthyO (some (Val.vstr "ForestGreen")) then fstrO (some (Val.vstr "ForestGreen"))
            else baseArgs.button_color) ++ "\"") = true
    ∧ styleOf none none none none baseArgs = style1Of none none none :=
  ⟨(c6_hover_attributes (Val.vstr "CV") (Val.vstr "home") (Val.vstr "/") none none
      (some (Val.vstr "ForestGreen")) (some (Val.vstr "Pink")) baseArgs).1 (by decide),
    ((c6_hover_attributes (Val.vstr "CV") (Val.vstr "home") (Val.vstr "/") none none
      none none baseArgs).2 (by decide)).1⟩

def oneJsonFs : String → FileContent :=
  fun _ => { csvRows := [], jsonVal := Except.ok [recA] }

def c7Args : Args := { outdir := "custom/", template_dir := "mytpl/" }

def c7World : World :=
  { dirExists := fun _ => true, template := fun tdir name _ => tdir ++ name }

/-- C7: the claim says both output files are written into the
CLI-configured output directory from templates in the CLI-configured
template directory; evaluating the entry point with outdir `custom/` and
template dir `mytpl/` shows `index.html` honouring both flags while
`index.css` is written into the hard-coded default `out/` from the default
`templates/` — the second `render_template` call passes neither directory,
a slip contradicting the CLI help for `--outdir`. -/
theorem c7_css_ignores_cli_dirs :
    mainRun ["links.json"] oneJsonFs c7World c7Args
      = ([{ dir := "custom/", file := "index.html", content := "mytpl/index.html" },
          { dir := "out/", file := "index.css", content := "templates/index.css" }], none)
    ∧ c7Args.outdir = "custom/" ∧ c7Args.template_dir = "mytpl/" :=
  ⟨by decide, rfl, rfl⟩

def c8Args : Args := { outdir := "custom/" }

def c8World : World :=
  { dirExists := fun d => d == "custom/", template := fun tdir name _ => tdir ++ name }

/-- C8: the claim says a missing destination directory makes the run fail
before any write is performed; because the `index.css` call targets the
hard-coded `out/`, a run whose CLI outdir exists while `out/` does not
first writes `index.html` into the CLI outdir and only then aborts on the
assertion — a write of the run has already happened. -/
theorem c8_partial_write_before_missing_dir :
    c8World.dirExists "out/" = false
    ∧ mainRun ["links.json"] oneJsonFs c8World c8Args
        = ([{ dir := "custom/", file := "index.html", content := "templates/index.html" }],
            some Err.assertionError) :=
  ⟨by decide, by decide⟩

def c9CsvFs : String → FileContent :=
  fun _ => { csvRows := [["CV", "home", "https://x"]], jsonVal := Except.error "not json" }

def c9Rec : Record :=
  { text := some (Val.vstr "CV"), fa_icon := some (Val.vstr "home"),
    url := some (Val.vstr "https://x") }

def c9JsonFs : String → FileContent :=
  fun _ => { csvRows := [], jsonVal := Except.ok [c9Rec] }

/-- C9: loading the CSV row `CV,home,https://x` yields the very same
record as loading the JSON object with text "CV", fa icon "home" and url
"https://x", and under any configuration both loads render to the same
HTML fragments. -/
theorem c9_csv_json_equiv :
    links_repr_from_file "links.csv" c9CsvFs = Except.ok [c9Rec]
    ∧ links_repr_from_file "links.json" c9JsonFs = Except.ok [c9Rec]
    ∧ (∀ args : Args,
        Except.map (fun recs => recs.map (fun r => json_repr_to_html r args))
            (links_repr_from_file "links.csv" c9CsvFs)
          = Except.map (fun recs => recs.map (fun r => json_repr_to_html r args))
            (links_repr_from_file "links.json" c9JsonFs)) :=
  ⟨rfl, rfl, fun args => rfl⟩

/-- C10: the width, font-size, color and hover-color fields are treated as
absent whenever falsy (0, empty string, null), not only when missing: the
fragment is unchanged when falsy style values are replaced by absent ones;
a record whose style keys are all absent or falsy renders with no inline
style attribute; and a truthy hover color with a falsy color makes the
hover-exit handler fall back to the global default button color. -/
theorem c10_falsy_treated_as_absent :
    ∀ (t i u : Val) (w f c hc : Option Val) (d : Args),
      convert_link_to_html t i u w f c hc d
        = convert_link_to_html t i u (keepTruthy w) (keepTruthy f) (keepTruthy c)
            (keepTruthy hc) d
      ∧ (truthyO w = false → truthyO f = false → truthyO c = false → truthyO hc = false →
          convert_link_to_html t i u w f c hc d
            = "<a href=\"" ++ u.fstr ++ "\"><button class=\"btn\" "
              ++ "> <i class=\"fa-solid fa-" ++ i.fstr ++ "\"></i> &nbsp; " ++ t.fstr
              ++ " </button></a>")
      ∧ (truthyO hc = true → truthyO c = false →
          strHasSub (convert_link_to_html t i u w f c hc d)
            (" onMouseOut=this.style.backgroundColor=\"" ++ d.button_color ++ "\"") = true) := by
  intro t i u w f c hc d
  refine ⟨convert_link_keepTruthy t i u w f c hc d, ?_, ?_⟩
  · intro hw hf hc2 hh
    rw [convert_link_to_html, styleOf_no_hover w f c hc d hh, style1Of_falsy w f c hw hf hc2]
    simp [String.append_assoc, str_empty_append, str_append_empty]
  · intro hh hc2
    have h := convert_link_mouse_out_sub t i u w f c hc d hh
    simpa [hc2] using h

theorem c10_witness :
    convert_link_to_html (Val.vstr "x") (Val.vstr "home") (Val.vstr "/")
        (some (Val.vnum 0)) (some (Val.vstr "")) none none baseArgs
      = convert_link_to_html (Val.vstr "x") (Val.vstr "home") (Val.vstr "/")
          (keepTruthy (some (Val.vnum 0))) (keepTruthy (some (Val.vstr ""))) (keepTruthy none)
          (keepTruthy none) baseArgs
    ∧ convert_link_to_html (Val.vstr "x") (Val.vstr "home") (Val.vstr "/")
        (some (Val.vnum 0)) (some (Val.vstr "")) (some Val.vnull) none baseArgs
      = "<a href=\"" ++ (Val.vstr "/").fstr ++ "\"><button class=\"btn\" "
        ++ "> <i class=\"fa-solid fa-" ++ (Val.vstr "home").fstr ++ "\"></i> &nbsp; "
        ++ (Val.vstr "x").fstr ++ " </button></a>"
    ∧ strHasSub (convert_link_to_html (Val.vstr "x") (Val.vstr "home") (Val.vstr "/")
        none none (some (Val.vstr "")) (some (Val.vstr "Pink")) baseArgs)
        (" onMouseOut=this.style.backgroundColor=\"" ++ baseArgs.button_color ++ "\"") = true :=
  ⟨(c10_falsy_treated_as_absent (Val.vstr "x") (Val.vstr "home") (Val.vstr "/")
      (some (Val.vnum 0)) (some (Val.vstr "")) none none baseArgs).1,
    (c10_falsy_treated_as_absent (Val.vstr "x") (Val.vstr "home") (Val.vstr "/")
      (some (Val.vnum 0)) (some (Val.vstr "")) (some Val.vnull) none baseArgs).2.1
      (by decide) (by decide) (by decide) (by decide),
    (c10_falsy_treated_as_absent (Val.vstr "x") (Val.vstr "home") (Val.vstr "/")
      none none (some (Val.vstr "")) (some (Val.vstr "Pink")) baseArgs).2.2
      (by decide) (by decide)⟩
